import Mathlib

/-!
Shallow embedding of the two-role ESP-NOW trigger link:
- receiver sketch `Remote-Buzzer-Activation/ESPReciever/ESPReciever.ino`
- transmitter sketch (broadcast master, button triggered).

Machine integers (`uint32_t` / 32-bit `unsigned long` on ESP32) are modelled
as `Nat` with explicit reduction modulo `2^32` where the C arithmetic wraps.
Serial logging is pure output and is not modelled; the receiver loop's
debug-print branch touches only the local `last_debug` timestamp, which feeds
only that output, so it is omitted from the state.
-/

/-- Range of a 32-bit unsigned integer (`uint32_t`, ESP32 `unsigned long`). -/
def UINT32 : Nat := 4294967296

/-- Unsigned 32-bit subtraction `a - b` as C computes it: the result modulo
`2^32`. Both operands are reduced first, so the function is total on `Nat`. -/
def wrapSub (a b : Nat) : Nat :=
  (a % UINT32 + UINT32 - b % UINT32) % UINT32

/-! ## Receiver (`ESPReciever.ino`) -/

/-- Hardware (MAC) address: 6 bytes, equality byte-exact (`memcmp` over 6). -/
abbrev Addr : Type := List Nat

/-- The ESP-NOW broadcast sentinel `ESP_NOW.BROADCAST_ADDR`: all bits set. -/
def BROADCAST_ADDR : Addr := [255, 255, 255, 255, 255, 255]

/-- `#define BUZZER_DURATION 1000` — ms the buzzer stays ON after a message. -/
def BUZZER_DURATION : Nat := 1000

/-- Receiver state: the `masters` vector (addresses of the
`ESP_NOW_Peer_Class` objects stored by `register_new_master`), the transport's
peer table (addresses successfully registered via `ESP_NOW_Peer::add`), the
two volatile globals `buzzer_active` and `buzzer_timer`, and the buzzer GPIO
level (`pin = true` models `digitalWrite(BUZZER_PIN, HIGH)`). -/
structure RecvState where
  masters : List Addr
  peerTable : List Addr
  buzzer_active : Bool
  buzzer_timer : Nat
  pin : Bool
deriving DecidableEq, Repr

/-- Receiver state after `setup()`: empty registry, buzzer OFF
(`digitalWrite(BUZZER_PIN, LOW)`), globals zero-initialised. -/
def recvInit : RecvState :=
  { masters := [], peerTable := [], buzzer_active := false
  , buzzer_timer := 0, pin := false }

/-- The three actuation statements shared by `onReceive` and the success path
of `register_new_master`:
`digitalWrite(BUZZER_PIN, HIGH); buzzer_timer = millis(); buzzer_active = true;`
`now` is the value `millis()` returns at that moment. -/
def activateBuzzer (now : Nat) (s : RecvState) : RecvState :=
  { s with pin := true, buzzer_timer := now, buzzer_active := true }

/-- `ESP_NOW_Peer_Class::onReceive(data, len, broadcast)`: logs the message,
then unconditionally activates the buzzer. `data`, `len` and `broadcast` feed
only the log lines. -/
def onReceive (now : Nat) (data : List Nat) (len : Nat) (broadcast : Bool)
    (s : RecvState) : RecvState :=
  activateBuzzer now s

/-- A received radio frame as seen by the receive callbacks
(`esp_now_recv_info_t`): source address, destination address, payload. -/
structure Frame where
  src : Addr
  dest : Addr
  data : List Nat
deriving DecidableEq, Repr

/-- `register_new_master(info, data, len, arg)` — the `onNewPeer` callback,
invoked for frames from a source not yet registered. `addOk` is the
transport's verdict on `ESP_NOW_Peer::add` for a given address (`add_peer`
returns false when the transport rejects the registration).
If `memcmp(info->des_addr, ESP_NOW.BROADCAST_ADDR, 6) == 0`: build the peer,
attempt `add_peer()`; on failure `delete new_master; return;` (state
unchanged); on success push onto `masters` and activate the buzzer.
Otherwise (unicast destination): ignore the message entirely. -/
def register_new_master (addOk : Addr → Bool) (now : Nat) (s : RecvState)
    (f : Frame) : RecvState :=
  if f.dest = BROADCAST_ADDR then
    if addOk f.src then
      activateBuzzer now
        { s with peerTable := s.peerTable ++ [f.src]
               , masters := s.masters ++ [f.src] }
    else
      s
  else
    s

/-- Transport receive dispatch, per the documented ESP-NOW semantics the
sketch relies on (spec §4.2 / §6): a frame from a source present in the peer
table is routed to that peer's `onReceive`; a frame from an unknown source
invokes the `onNewPeer` callback `register_new_master`. -/
def processFrame (addOk : Addr → Bool) (now : Nat) (s : RecvState)
    (f : Frame) : RecvState :=
  if f.src ∈ s.peerTable then
    onReceive now f.data f.data.length (decide (f.dest = BROADCAST_ADDR)) s
  else
    register_new_master addOk now s f

/-- Process a sequence of timestamped frames in arrival order. -/
def processAll (addOk : Addr → Bool) (frames : List (Nat × Frame))
    (s : RecvState) : RecvState :=
  frames.foldl (fun t p => processFrame addOk p.1 t p.2) s

/-- Source addresses of the broadcast-destination frames of a sequence. -/
def broadcastSrcs (frames : List (Nat × Frame)) : List Addr :=
  (frames.filter (fun p => p.2.dest == BROADCAST_ADDR)).map (fun p => p.2.src)

/-- The buzzer-timeout part of the receiver `loop()`:
`if (buzzer_active && (millis() - buzzer_timer > BUZZER_DURATION)) {
   digitalWrite(BUZZER_PIN, LOW); buzzer_active = false; }`
The subtraction is 32-bit unsigned; the comparison is strict. -/
def tick (now : Nat) (s : RecvState) : RecvState :=
  if s.buzzer_active ∧ BUZZER_DURATION < wrapSub now s.buzzer_timer then
    { s with pin := false, buzzer_active := false }
  else
    s

/-! ## Transmitter (broadcast master, button triggered) -/

/-- `delay(250)` after a detected press — the debounce hold. -/
def DEBOUNCE_DELAY : Nat := 250

/-- Transmitter state. `now` is the current `millis()` value;
`lastButtonState` tracks the previous sample (`true` = HIGH = released, the
button is active-low); `msg_count` is the `uint32_t` press counter;
`attempts` records every `send_message` call as (time, message number);
`delivered` keeps the attempts for which the transport send succeeded. -/
structure TxState where
  now : Nat
  lastButtonState : Bool
  msg_count : Nat
  attempts : List (Nat × Nat)
  delivered : List (Nat × Nat)
deriving DecidableEq, Repr

/-- Transmitter state after `setup()`: `msg_count = 0`,
`lastButtonState = HIGH`. -/
def txInit : TxState :=
  { now := 0, lastButtonState := true, msg_count := 0
  , attempts := [], delivered := [] }

/-- One iteration of the transmitter `loop()`. `signal t` is the level
`digitalRead(BUTTON_PIN)` returns at time `t` (`true` = HIGH); `sendOk t` is
the transport's verdict on the broadcast send issued at time `t`. On a
falling edge (`lastButtonState == HIGH && currentButtonState == LOW`) the
counter is pre-incremented (`++msg_count`, wrapping as `uint32_t`), the send
is attempted (failure only logged), and `delay(250)` suspends the loop; in
either case `lastButtonState = currentButtonState` ends the iteration. A
non-triggering iteration is modelled as taking 1 ms (the sampling cadence);
a triggering one additionally spends the 250 ms blocking delay. -/
def txStep (signal : Nat → Bool) (sendOk : Nat → Bool) (s : TxState) : TxState :=
  if s.lastButtonState = true ∧ signal s.now = false then
    { now := s.now + DEBOUNCE_DELAY + 1
    , lastButtonState := signal s.now
    , msg_count := (s.msg_count + 1) % UINT32
    , attempts := s.attempts ++ [(s.now, (s.msg_count + 1) % UINT32)]
    , delivered := s.delivered ++
        (if sendOk s.now then [(s.now, (s.msg_count + 1) % UINT32)] else []) }
  else
    { s with now := s.now + 1, lastButtonState := signal s.now }

/-- Run `n` iterations of the transmitter loop. -/
def txRun (signal : Nat → Bool) (sendOk : Nat → Bool) : Nat → TxState → TxState
  | 0, s => s
  | n + 1, s => txRun signal sendOk n (txStep signal sendOk s)

/-! ## Helper lemmas -/

/-- If the elapsed time has not strictly exceeded the duration, `tick` leaves
the state untouched (the strict `>` comparison fails). -/
lemma tick_not_expired (now : Nat) (s : RecvState)
    (h : wrapSub now s.buzzer_timer ≤ BUZZER_DURATION) : tick now s = s := by
  unfold tick
  rw [if_neg (fun hc => absurd hc.2 (not_lt.mpr h))]

/-- If the buzzer is active and the elapsed time strictly exceeds the
duration, `tick` drives the pin LOW and clears `buzzer_active`. -/
lemma tick_expired (now : Nat) (s : RecvState) (ha : s.buzzer_active = true)
    (h : BUZZER_DURATION < wrapSub now s.buzzer_timer) :
    tick now s = { s with pin := false, buzzer_active := false } := by
  unfold tick
  rw [if_pos ⟨ha, h⟩]

/-- For an active buzzer, `tick` deactivates exactly when the (wrapping)
elapsed time strictly exceeds `BUZZER_DURATION`. -/
lemma tick_active_iff (now : Nat) (s : RecvState) (ha : s.buzzer_active = true) :
    ((tick now s).buzzer_active = false ↔
      BUZZER_DURATION < wrapSub now s.buzzer_timer) := by
  by_cases hc : BUZZER_DURATION < wrapSub now s.buzzer_timer
  · rw [tick_expired now s ha hc]
    exact iff_of_true rfl hc
  · rw [tick_not_expired now s (not_lt.mp hc)]
    exact iff_of_false (by simp [ha]) hc

/-- Folding `tick` over a list of poll times at which `tick` is the identity
leaves the state unchanged. -/
lemma foldl_tick_fixed (ts : List Nat) (s : RecvState)
    (h : ∀ t ∈ ts, tick t s = s) :
    ts.foldl (fun u t => tick t u) s = s := by
  induction ts with
  | nil => rfl
  | cons a l ih =>
    rw [List.foldl_cons, h a (List.mem_cons_self a l)]
    exact ih (fun t ht => h t (List.mem_cons_of_mem a ht))

/-- Unsigned 32-bit `now - start` recovers the true elapsed time `e` when
`now` is the wrapped clock value `(start + e) % 2^32`. -/
lemma wrapSub_elapsed (start e : Nat) (h1 : start < UINT32) (h2 : e < UINT32) :
    wrapSub ((start + e) % UINT32) start = e := by
  unfold wrapSub UINT32 at *
  omega

/-- A frame from an already-registered source is routed to `onReceive`, which
touches neither the `masters` list nor the peer table. -/
lemma processFrame_known (addOk : Addr → Bool) (now : Nat) (s : RecvState)
    (f : Frame) (h : f.src ∈ s.peerTable) :
    (processFrame addOk now s f).masters = s.masters ∧
    (processFrame addOk now s f).peerTable = s.peerTable := by
  unfold processFrame
  rw [if_pos h]
  exact ⟨rfl, rfl⟩

lemma broadcastSrcs_cons_bcast (p : Nat × Frame) (rest : List (Nat × Frame))
    (h : p.2.dest = BROADCAST_ADDR) :
    broadcastSrcs (p :: rest) = p.2.src :: broadcastSrcs rest := by
  unfold broadcastSrcs
  rw [List.filter_cons, if_pos (by simpa using h)]
  rfl

lemma broadcastSrcs_cons_other (p : Nat × Frame) (rest : List (Nat × Frame))
    (h : p.2.dest ≠ BROADCAST_ADDR) :
    broadcastSrcs (p :: rest) = broadcastSrcs rest := by
  unfold broadcastSrcs
  rw [List.filter_cons, if_neg (by simpa using h)]

/-- Core registry invariant: processing any frame sequence from a state whose
peer table mirrors the `masters` list keeps the two in sync and duplicate
free, and the addresses in the registry afterwards are exactly the ones
already there plus the broadcast sources of the sequence (assuming the
transport accepts every registration). -/
lemma processAll_registry (addOk : Addr → Bool) (hok : ∀ a, addOk a = true) :
    ∀ (frames : List (Nat × Frame)) (s : RecvState),
    s.peerTable = s.masters → s.masters.Nodup →
    (processAll addOk frames s).peerTable = (processAll addOk frames s).masters ∧
    (processAll addOk frames s).masters.Nodup ∧
    ∀ a : Addr, a ∈ (processAll addOk frames s).masters ↔
      (a ∈ s.masters ∨ a ∈ broadcastSrcs frames) := by
  intro frames
  induction frames with
  | nil =>
    intro s h1 h2
    refine ⟨h1, h2, fun a => ?_⟩
    simp [processAll, broadcastSrcs]
  | cons p rest ih =>
    intro s h1 h2
    have hstep : processAll addOk (p :: rest) s
        = processAll addOk rest (processFrame addOk p.1 s p.2) := rfl
    by_cases hmem : p.2.src ∈ s.peerTable
    · obtain ⟨e1, e2⟩ := processFrame_known addOk p.1 s p.2 hmem
      have hrec := ih (processFrame addOk p.1 s p.2)
        (by rw [e1, e2, h1]) (by rw [e1]; exact h2)
      rw [hstep]
      refine ⟨hrec.1, hrec.2.1, fun a => ?_⟩
      rw [hrec.2.2 a, e1]
      by_cases hd : p.2.dest = BROADCAST_ADDR
      · rw [broadcastSrcs_cons_bcast p rest hd]
        constructor
        · rintro (hl | hr)
          · exact Or.inl hl
          · exact Or.inr (List.mem_cons_of_mem _ hr)
        · rintro (hl | hr)
          · exact Or.inl hl
          · rcases List.mem_cons.mp hr with heq | hin
            · exact Or.inl (heq ▸ (h1 ▸ hmem))
            · exact Or.inr hin
      · rw [broadcastSrcs_cons_other p rest hd]
    · by_cases hd : p.2.dest = BROADCAST_ADDR
      · have hfr : processFrame addOk p.1 s p.2
            = activateBuzzer p.1
                { s with peerTable := s.peerTable ++ [p.2.src]
                       , masters := s.masters ++ [p.2.src] } := by
          unfold processFrame register_new_master
          rw [if_neg hmem, if_pos hd, if_pos (hok p.2.src)]
        have hnd : (s.masters ++ [p.2.src]).Nodup := by
          rw [List.nodup_append]
          refine ⟨h2, List.nodup_singleton _, ?_⟩
          intro a ha hb
          rw [List.mem_singleton] at hb
          exact hmem (h1 ▸ (hb ▸ ha))
        have hrec := ih (processFrame addOk p.1 s p.2)
          (by rw [hfr]; show s.peerTable ++ [p.2.src] = s.masters ++ [p.2.src]
              rw [h1])
          (by rw [hfr]; exact hnd)
        rw [hstep]
        refine ⟨hrec.1, hrec.2.1, fun a => ?_⟩
        rw [hrec.2.2 a, broadcastSrcs_cons_bcast p rest hd]
        have hm : (processFrame addOk p.1 s p.2).masters
            = s.masters ++ [p.2.src] := by rw [hfr]; rfl
        rw [hm, List.mem_append, List.mem_singleton, List.mem_cons]
        tauto
      · have hfr : processFrame addOk p.1 s p.2 = s := by
          unfold processFrame register_new_master
          rw [if_neg hmem, if_neg hd]
        rw [hstep, hfr, broadcastSrcs_cons_other p rest hd]
        exact ih s h1 h2

/-- Once the transmitter's clock is past 250 ms, a signal that stays HIGH at
all such times can never produce another falling edge, so no further send
attempt is recorded. -/
lemma txRun_no_press (sig ok : Nat → Bool) (hhi : ∀ t, 250 ≤ t → sig t = true) :
    ∀ (m : Nat) (s : TxState), 250 ≤ s.now →
    (txRun sig ok m s).attempts = s.attempts := by
  intro m
  induction m with
  | zero => intro s _; rfl
  | succ k ih =>
    intro s h1
    have hstep : txStep sig ok s
        = { s with now := s.now + 1, lastButtonState := sig s.now } := by
      unfold txStep
      rw [if_neg]
      rintro ⟨-, hcur⟩
      rw [hhi s.now h1] at hcur
      exact Bool.noConfusion hcur
    show (txRun sig ok k (txStep sig ok s)).attempts = s.attempts
    rw [hstep]
    exact ih _ (Nat.le_succ_of_le h1)

/-! ## Claims -/

/-- Claim C1: a receive event arriving while the buzzer is already active
resets `buzzer_timer` to the current time, so the output stays active until
the most recent start plus the duration. After `onReceive` at `t = 0` and
again at `t = 500` with `BUZZER_DURATION = 1000`, the timer reads 500, any
polls up to `t = 1500` leave the buzzer active, and in particular the poll at
`t = 1000` (the earlier deadline) does not deactivate it. -/
theorem rearm_extends_window (ts : List Nat)
    (h : ∀ t ∈ ts, 500 ≤ t ∧ t ≤ 1500) :
    (onReceive 500 [] 0 true (onReceive 0 [] 0 true recvInit)).buzzer_timer = 500 ∧
    (ts.foldl (fun u t => tick t u)
      (onReceive 500 [] 0 true (onReceive 0 [] 0 true recvInit))).buzzer_active = true ∧
    (tick 1000 (onReceive 500 [] 0 true (onReceive 0 [] 0 true recvInit))).buzzer_active
      = true := by
  refine ⟨rfl, ?_, by decide⟩
  have key : ∀ t ∈ ts,
      tick t (onReceive 500 [] 0 true (onReceive 0 [] 0 true recvInit))
        = onReceive 500 [] 0 true (onReceive 0 [] 0 true recvInit) := by
    intro t ht
    obtain ⟨ha, hb⟩ := h t ht
    apply tick_not_expired
    show wrapSub t 500 ≤ BUZZER_DURATION
    unfold wrapSub UINT32 BUZZER_DURATION
    omega
  rw [foldl_tick_fixed ts _ key]
  rfl

/-- Witness for C1 at the concrete poll times 600, 1000 and 1500. -/
theorem rearm_extends_window_witness :
    (onReceive 500 [] 0 true (onReceive 0 [] 0 true recvInit)).buzzer_timer = 500 ∧
    (([600, 1000, 1500] : List Nat).foldl (fun u t => tick t u)
      (onReceive 500 [] 0 true (onReceive 0 [] 0 true recvInit))).buzzer_active = true ∧
    (tick 1000 (onReceive 500 [] 0 true (onReceive 0 [] 0 true recvInit))).buzzer_active
      = true :=
  rearm_extends_window [600, 1000, 1500] (by decide)

/-- Claim C2 counterexample: a broadcast frame from the unknown source
address 01:02:03:04:05:06 whose `add_peer` is rejected does NOT drive the
output active and does not start the actuation timer — `register_new_master`
deletes the peer and returns before the buzzer statements run, leaving the
state exactly as it was. -/
theorem reg_failure_no_actuation_cex :
    (processFrame (fun _ => false) 0 recvInit
        ⟨[1, 2, 3, 4, 5, 6], BROADCAST_ADDR, []⟩).buzzer_active = false ∧
    (processFrame (fun _ => false) 0 recvInit
        ⟨[1, 2, 3, 4, 5, 6], BROADCAST_ADDR, []⟩).pin = false ∧
    (processFrame (fun _ => false) 0 recvInit
        ⟨[1, 2, 3, 4, 5, 6], BROADCAST_ADDR, []⟩).masters = [] := by
  decide

/-- Claim C2 (amended): for every frame from an unknown source whose peer
registration is rejected by the transport, the receiver performs no effect at
all: the frame is dropped, the registry is unchanged, and the buzzer is
neither driven active nor re-armed. -/
theorem reg_failure_drops_frame (addOk : Addr → Bool) (now : Nat)
    (s : RecvState) (f : Frame) (h1 : f.src ∉ s.peerTable)
    (h2 : addOk f.src = false) :
    processFrame addOk now s f = s := by
  unfold processFrame register_new_master
  rw [if_neg h1]
  by_cases hd : f.dest = BROADCAST_ADDR
  · rw [if_pos hd, if_neg (by simp [h2])]
  · rw [if_neg hd]

/-- Witness for the amended C2 on a concrete rejected broadcast frame. -/
theorem reg_failure_drops_frame_witness :
    processFrame (fun _ => false) 3 recvInit
      ⟨[1, 2, 3, 4, 5, 6], BROADCAST_ADDR, [7]⟩ = recvInit :=
  reg_failure_drops_frame (fun _ => false) 3 recvInit
    ⟨[1, 2, 3, 4, 5, 6], BROADCAST_ADDR, [7]⟩ (by decide) rfl

/-- Claim C3 counterexample: the loop's comparison is strict
(`millis() - buzzer_timer > BUZZER_DURATION`), so at elapsed time exactly
`BUZZER_DURATION` the buzzer is still active and the pin still HIGH — the
claim that the output is already inactive when the elapsed time equals the
duration is false on the code. -/
theorem tick_at_duration_still_active_cex :
    (tick BUZZER_DURATION (activateBuzzer 0 recvInit)).buzzer_active = true ∧
    (tick BUZZER_DURATION (activateBuzzer 0 recvInit)).pin = true := by
  decide

/-- Claim C3 (amended): after a poll of an active buzzer the state satisfies
`active == (now - activation_time) ≤ duration`: `tick now` deactivates (and
drives the pin LOW) exactly when the wrapping elapsed time STRICTLY exceeds
`BUZZER_DURATION`; when the elapsed time is at most the duration — including
equality — the poll leaves the state untouched. -/
theorem tick_strict_deactivation (s : RecvState) (now : Nat)
    (h : s.buzzer_active = true) :
    ((tick now s).buzzer_active = false ↔
      BUZZER_DURATION < wrapSub now s.buzzer_timer) ∧
    (BUZZER_DURATION < wrapSub now s.buzzer_timer →
      (tick now s).pin = false ∧ (tick now s).buzzer_active = false) ∧
    (wrapSub now s.buzzer_timer ≤ BUZZER_DURATION → tick now s = s) :=
  ⟨tick_active_iff now s h,
   fun hlt => by rw [tick_expired now s h hlt]; exact ⟨rfl, rfl⟩,
   fun hle => tick_not_expired now s hle⟩

/-- Witness for the amended C3 at activation time 0 and poll time 1001. -/
theorem tick_strict_deactivation_witness :
    (((tick 1001 (activateBuzzer 0 recvInit)).buzzer_active = false ↔
        BUZZER_DURATION < wrapSub 1001 (activateBuzzer 0 recvInit).buzzer_timer) ∧
     (BUZZER_DURATION < wrapSub 1001 (activateBuzzer 0 recvInit).buzzer_timer →
        (tick 1001 (activateBuzzer 0 recvInit)).pin = false ∧
        (tick 1001 (activateBuzzer 0 recvInit)).buzzer_active = false) ∧
     (wrapSub 1001 (activateBuzzer 0 recvInit).buzzer_timer ≤ BUZZER_DURATION →
        tick 1001 (activateBuzzer 0 recvInit) = activateBuzzer 0 recvInit)) :=
  tick_strict_deactivation (activateBuzzer 0 recvInit) 1001 rfl

/-- Claim C8: a frame whose source is unknown and whose destination is not
the broadcast sentinel is ignored entirely: no peer is registered, the
`masters` list is untouched, and the actuation timer is not started — the
receiver state is exactly unchanged. -/
theorem unknown_unicast_ignored (addOk : Addr → Bool) (now : Nat)
    (s : RecvState) (f : Frame) (h1 : f.src ∉ s.peerTable)
    (h2 : f.dest ≠ BROADCAST_ADDR) :
    processFrame addOk now s f = s := by
  unfold processFrame register_new_master
  rw [if_neg h1, if_neg h2]

/-- Witness for C8 on a concrete directed frame from an unknown source. -/
theorem unknown_unicast_ignored_witness :
    processFrame (fun _ => true) 0 recvInit
      ⟨[1, 2, 3, 4, 5, 6], [9, 9, 9, 9, 9, 9], [1]⟩ = recvInit :=
  unknown_unicast_ignored (fun _ => true) 0 recvInit
    ⟨[1, 2, 3, 4, 5, 6], [9, 9, 9, 9, 9, 9], [1]⟩ (by decide) (by decide)

/-- Claim C10: `ESP_NOW_Peer_Class::onReceive` performs the actuation effect
for every delivered frame without inspecting the payload, its length, or the
broadcast flag: the result is the same for any argument values, the pin is
driven HIGH, the timer is reset to the current time, `buzzer_active` is set,
and the registry is untouched. -/
theorem onreceive_unconditional (now : Nat) (d1 d2 : List Nat) (l1 l2 : Nat)
    (b1 b2 : Bool) (s : RecvState) :
    onReceive now d1 l1 b1 s = onReceive now d2 l2 b2 s ∧
    (onReceive now d1 l1 b1 s).pin = true ∧
    (onReceive now d1 l1 b1 s).buzzer_active = true ∧
    (onReceive now d1 l1 b1 s).buzzer_timer = now ∧
    (onReceive now d1 l1 b1 s).masters = s.masters ∧
    (onReceive now d1 l1 b1 s).peerTable = s.peerTable :=
  ⟨rfl, rfl, rfl, rfl, rfl, rfl⟩

/-- A duplicate-free address list counts each of its members exactly once. -/
lemma addr_count_one (a : Addr) (l : List Addr) (h : l.Nodup) (ha : a ∈ l) :
    l.count a = 1 := by
  induction l with
  | nil => cases ha
  | cons b t ih =>
    rcases List.mem_cons.mp ha with rfl | hmem
    · rw [List.count_cons_self,
        List.count_eq_zero.mpr (List.nodup_cons.mp h).1]
    · have hne : a ≠ b := fun he => (List.nodup_cons.mp h).1 (he ▸ hmem)
      rw [List.count_cons, ih (List.nodup_cons.mp h).2 hmem]
      simp [hne]
      exact fun he => hne he.symm

/-- Claim C4: for every sequence of broadcast frames — repetitions of the
same source included — whose registrations the transport accepts, the
registry after processing holds exactly one entry per distinct source
address, and the `masters` list agrees with the transport's peer table. -/
theorem registry_one_entry_per_address (addOk : Addr → Bool)
    (frames : List (Nat × Frame)) (a : Addr) (hok : ∀ b, addOk b = true) :
    (processAll addOk frames recvInit).peerTable
      = (processAll addOk frames recvInit).masters ∧
    (processAll addOk frames recvInit).masters.count a
      = if a ∈ broadcastSrcs frames then 1 else 0 := by
  obtain ⟨h1, h2, h3⟩ :=
    processAll_registry addOk hok frames recvInit rfl List.nodup_nil
  refine ⟨h1, ?_⟩
  by_cases hm : a ∈ broadcastSrcs frames
  · rw [if_pos hm]
    exact addr_count_one a _ h2 ((h3 a).mpr (Or.inr hm))
  · rw [if_neg hm]
    rw [List.count_eq_zero]
    intro hin
    rcases (h3 a).mp hin with hl | hr
    · simp [recvInit] at hl
    · exact hm hr

/-- Witness for C4: two broadcast frames from the same source followed by a
directed frame from another source. -/
theorem registry_one_entry_per_address_witness :
    (processAll (fun _ => true)
        [(0, ⟨[1, 2, 3, 4, 5, 6], BROADCAST_ADDR, []⟩),
         (5, ⟨[1, 2, 3, 4, 5, 6], BROADCAST_ADDR, []⟩),
         (9, ⟨[7, 7, 7, 7, 7, 7], [9, 9, 9, 9, 9, 9], []⟩)] recvInit).peerTable
      = (processAll (fun _ => true)
        [(0, ⟨[1, 2, 3, 4, 5, 6], BROADCAST_ADDR, []⟩),
         (5, ⟨[1, 2, 3, 4, 5, 6], BROADCAST_ADDR, []⟩),
         (9, ⟨[7, 7, 7, 7, 7, 7], [9, 9, 9, 9, 9, 9], []⟩)] recvInit).masters ∧
    (processAll (fun _ => true)
        [(0, ⟨[1, 2, 3, 4, 5, 6], BROADCAST_ADDR, []⟩),
         (5, ⟨[1, 2, 3, 4, 5, 6], BROADCAST_ADDR, []⟩),
         (9, ⟨[7, 7, 7, 7, 7, 7], [9, 9, 9, 9, 9, 9], []⟩)] recvInit).masters.count
        [1, 2, 3, 4, 5, 6]
      = if [1, 2, 3, 4, 5, 6] ∈ broadcastSrcs
          [(0, ⟨[1, 2, 3, 4, 5, 6], BROADCAST_ADDR, []⟩),
           (5, ⟨[1, 2, 3, 4, 5, 6], BROADCAST_ADDR, []⟩),
           (9, ⟨[7, 7, 7, 7, 7, 7], [9, 9, 9, 9, 9, 9], []⟩)]
        then 1 else 0 :=
  registry_one_entry_per_address (fun _ => true)
    [(0, ⟨[1, 2, 3, 4, 5, 6], BROADCAST_ADDR, []⟩),
     (5, ⟨[1, 2, 3, 4, 5, 6], BROADCAST_ADDR, []⟩),
     (9, ⟨[7, 7, 7, 7, 7, 7], [9, 9, 9, 9, 9, 9], []⟩)]
    [1, 2, 3, 4, 5, 6] (fun _ => rfl)

/-- Claim C5: for every button signal with raw active-level (HIGH-to-LOW)
edges at `t = 0` and `t = 50` that is released from `t = 250` on, running the
transmitter loop sends exactly one broadcast message: the blocking
`delay(250)` debounce hold makes the loop blind until `t = 250`, so the edge
at `t = 50` never produces a second trigger. -/
theorem debounce_single_send (sig ok : Nat → Bool) (n : Nat)
    (h0 : sig 0 = false) (h49 : sig 49 = true) (h50 : sig 50 = false)
    (hhi : ∀ t, 250 ≤ t → sig t = true) (hn : 1 ≤ n) :
    (txRun sig ok n txInit).attempts.length = 1 := by
  obtain ⟨k, rfl⟩ : ∃ k, n = k + 1 := ⟨n - 1, by omega⟩
  show (txRun sig ok k (txStep sig ok txInit)).attempts.length = 1
  have ha : (txStep sig ok txInit).attempts = [(0, 1)] := by
    unfold txStep txInit
    rw [if_pos ⟨rfl, h0⟩]
    norm_num [UINT32]
  have hnow : 250 ≤ (txStep sig ok txInit).now := by
    unfold txStep txInit
    rw [if_pos ⟨rfl, h0⟩]
    norm_num [DEBOUNCE_DELAY]
  rw [txRun_no_press sig ok hhi k _ hnow, ha]
  rfl

/-- Button signal for the C5 witness: pressed (LOW) on `[0, 25)` and
`[50, 75)`, released (HIGH) everywhere else. -/
def sigC5 : Nat → Bool :=
  fun t => !(decide (t < 25) || (decide (50 ≤ t) && decide (t < 75)))

/-- Witness for C5 with the concrete signal `sigC5` over five iterations. -/
theorem debounce_single_send_witness :
    (txRun sigC5 (fun _ => true) 5 txInit).attempts.length = 1 :=
  debounce_single_send sigC5 (fun _ => true) 5 rfl rfl rfl
    (fun t ht => by simp [sigC5]; omega) (by norm_num)

/-- Claim C6: the receiver's unsigned elapsed-time comparison is wraparound
safe. The fixed duration is below half the counter range, the 32-bit
subtraction recovers the true elapsed time `e` from the wrapped clock value
`(start + e) % 2^32`, and a poll at that wrapped time deactivates the buzzer
exactly when `e` exceeds the duration — neither premature nor missed
deactivation, even when the counter wraps between start and poll. -/
theorem wraparound_safe (start e : Nat) (h1 : start < UINT32)
    (h2 : e < UINT32) :
    2 * BUZZER_DURATION < UINT32 ∧
    wrapSub ((start + e) % UINT32) start = e ∧
    ((tick ((start + e) % UINT32) (activateBuzzer start recvInit)).buzzer_active
        = false ↔ BUZZER_DURATION < e) := by
  refine ⟨by decide, wrapSub_elapsed start e h1 h2, ?_⟩
  have h3 := tick_active_iff ((start + e) % UINT32)
    (activateBuzzer start recvInit) rfl
  rw [show (activateBuzzer start recvInit).buzzer_timer = start from rfl] at h3
  rw [wrapSub_elapsed start e h1 h2] at h3
  exact h3

/-- Witness for C6: activation 100 ms before the counter wraps, polled
1500 ms later (after the wrap). -/
theorem wraparound_safe_witness :
    2 * BUZZER_DURATION < UINT32 ∧
    wrapSub ((4294967196 + 1500) % UINT32) 4294967196 = 1500 ∧
    ((tick ((4294967196 + 1500) % UINT32)
        (activateBuzzer 4294967196 recvInit)).buzzer_active = false ↔
      BUZZER_DURATION < 1500) :=
  wraparound_safe 4294967196 1500 (by decide) (by decide)

/-- Claim C7: the transmitter's message counter is a 32-bit unsigned value:
it is 0 after setup, the first qualifying press sends message number 1, and
each qualifying press increments it by exactly one, wrapping to 0 when it
overflows the 32-bit range. -/
theorem sequence_counter_spec (sig ok : Nat → Bool) (s : TxState)
    (h0 : sig 0 = false) (h1 : s.lastButtonState = true)
    (h2 : sig s.now = false) (h3 : s.msg_count < UINT32) :
    txInit.msg_count = 0 ∧
    (txStep sig ok txInit).attempts = [(0, 1)] ∧
    (txStep sig ok s).msg_count
      = (if s.msg_count = UINT32 - 1 then 0 else s.msg_count + 1) := by
  refine ⟨rfl, ?_, ?_⟩
  · unfold txStep txInit
    rw [if_pos ⟨rfl, h0⟩]
    norm_num [UINT32]
  · unfold txStep
    rw [if_pos ⟨h1, h2⟩]
    show (s.msg_count + 1) % UINT32 = _
    by_cases he : s.msg_count = UINT32 - 1
    · rw [if_pos he, he]
      decide
    · rw [if_neg he]
      apply Nat.mod_eq_of_lt
      unfold UINT32 at *
      omega

/-- Witness for C7 from the freshly initialised transmitter state. -/
theorem sequence_counter_spec_witness :
    txInit.msg_count = 0 ∧
    (txStep (fun _ => false) (fun _ => true) txInit).attempts = [(0, 1)] ∧
    (txStep (fun _ => false) (fun _ => true) txInit).msg_count
      = (if txInit.msg_count = UINT32 - 1 then 0 else txInit.msg_count + 1) :=
  sequence_counter_spec (fun _ => false) (fun _ => true) txInit
    rfl rfl rfl (by decide)

/-- Button signal for the C9 scenario: pressed (LOW) on `[0, 10)` and again
on `[300, 310)` — two qualifying edges separated by more than the debounce
hold. -/
def sigC9 : Nat → Bool :=
  fun t => !(decide (t < 10) || (decide (300 ≤ t) && decide (t < 310)))

set_option maxRecDepth 16384 in
/-- Claim C9: a failed broadcast send leaves the edge-detector state machine
in exactly the state a successful send would: every field except the
delivered-message record is independent of the transport's verdict. In the
concrete scenario `sigC9` where every send fails, the second qualifying edge
(after the debounce window) still attempts a send — two attempts, none
delivered. -/
theorem send_failure_keeps_state (sig ok1 ok2 : Nat → Bool) (s : TxState) :
    ((txStep sig ok1 s).now = (txStep sig ok2 s).now ∧
     (txStep sig ok1 s).lastButtonState = (txStep sig ok2 s).lastButtonState ∧
     (txStep sig ok1 s).msg_count = (txStep sig ok2 s).msg_count ∧
     (txStep sig ok1 s).attempts = (txStep sig ok2 s).attempts) ∧
    (txRun sigC9 (fun _ => false) 60 txInit).attempts.length = 2 ∧
    (txRun sigC9 (fun _ => false) 60 txInit).delivered = [] := by
  refine ⟨?_, by decide, by decide⟩
  unfold txStep
  by_cases hc : s.lastButtonState = true ∧ sig s.now = false
  · rw [if_pos hc, if_pos hc]
    exact ⟨rfl, rfl, rfl, rfl⟩
  · rw [if_neg hc, if_neg hc]
    exact ⟨rfl, rfl, rfl, rfl⟩
